import Mathlib

/-!
Verification of the puppeteer module (`meltingpot/python/utils/bots/puppeteers.py`).

The embedding is shallow and purely functional: a Python `dict`-valued
observation becomes an association list over a `Val` type of numeric arrays
and nested dicts; `dm_env.TimeStep` becomes a record; numpy integer arrays
become `List Int`; fallible observation access (Python `KeyError` /
`IndexError`) returns `Option`. Since the embedding is pure, the source's
non-mutation contracts hold by construction.
-/

/-- Step types of `dm_env.TimeStep`. -/
inductive StepType where
  | FIRST : StepType
  | MID : StepType
  | LAST : StepType
deriving DecidableEq, Repr

/-- Observation values: numeric vectors, numeric matrices, or nested dicts
(e.g. the `global` sub-observation of the cleanup substrate). Booleans from
numpy comparisons are carried as the vectors they are compared from. -/
inductive Val where
  | intVec : List Int → Val
  | intMat : List (List Int) → Val
  | dict : List (String × Val) → Val

/-- Coerce a value to a numeric vector, as Python code that indexes it would. -/
def Val.asIntVec : Val → Option (List Int)
  | .intVec v => some v
  | _ => none

/-- Coerce a value to a numeric matrix. -/
def Val.asIntMat : Val → Option (List (List Int))
  | .intMat m => some m
  | _ => none

/-- Coerce a value to a nested observation dict. -/
def Val.asDict : Val → Option (List (String × Val))
  | .dict d => some d
  | _ => none

/-- Python `dict` lookup on an association list (first binding wins; the
construction functions below keep keys unique, as a real dict does). -/
def dlookup : List (String × Val) → String → Option Val
  | [], _ => none
  | p :: rest, k => if k = p.1 then some p.2 else dlookup rest k

/-- Python `dict` item assignment `d[k] = v`: overwrite in place when the key
is present, append otherwise. -/
def dinsert (d : List (String × Val)) (k : String) (v : Val) : List (String × Val) :=
  if d.any (fun p => p.1 = k) then d.map (fun p => if p.1 = k then (k, v) else p)
  else d ++ [(k, v)]

/-- Python `dict(pairs)`: successive item assignment, so a later pair with the
same key overwrites the earlier one. -/
def dictOfPairs (ps : List (String × Val)) : List (String × Val) :=
  ps.foldl (fun d p => dinsert d p.1 p.2) []

/-- The timestep record of `dm_env`, with the observation as a dict. -/
structure TimeStep where
  step_type : StepType
  reward : Int
  discount : Int
  observation : List (String × Val)

/-- Model of `dm_env.TimeStep.first()`. -/
def TimeStep.first (ts : TimeStep) : Bool := ts.step_type = StepType.FIRST

/-- Key under which the goal is injected (`_GOAL_OBSERVATION_KEY`). -/
def GOAL_OBSERVATION_KEY : String := "GOAL"

/-- Model of `puppet_timestep`: return a timestep with a goal observation
added (the observation dict is rebuilt with the `GOAL` entry set, so the
input is never mutated). -/
def puppet_timestep (timestep : TimeStep) (goal : Val) : TimeStep :=
  { timestep with observation := dinsert timestep.observation GOAL_OBSERVATION_KEY goal }

/-- Row `i` of `np.eye n`: one-hot with the `1` at index `i`. -/
def oneHotRow (n i : Nat) : List Int :=
  (List.range n).map (fun j => if j = i then 1 else 0)

/-- Model of `np.eye n`: the list of its rows. -/
def eyeRows (n : Nat) : List (List Int) :=
  (List.range n).map (oneHotRow n)

/-- Model of `puppet_goals`: a dict built from the goal names zipped with the
rows of the identity matrix (the requested dtype does not affect structure). -/
def puppet_goals (names : List String) : List (String × Val) :=
  dictOfPairs ((names.zip (eyeRows names.length)).map (fun p => (p.1, Val.intVec p.2)))

/-- Goal actually attached to a timestep, read back from its observation. -/
def goalOf (ts : TimeStep) : Option Val :=
  dlookup ts.observation GOAL_OBSERVATION_KEY

/-- Dot product of two goal vectors (for the orthogonality property). -/
def dotInt (a b : List Int) : Int := (List.zipWith (· * ·) a b).sum

/-- The `CLEAN`/`EAT` goal vocabulary (`_CLEAN_UP_GOALS`). -/
def CLEAN_UP_GOALS : List (String × Val) := puppet_goals ["CLEAN", "EAT"]

/-- Subscript access `_CLEAN_UP_GOALS[name]` (always succeeds on the two
declared names, which is all the source ever uses). -/
def cleanUpGoal (name : String) : Val :=
  (dlookup CLEAN_UP_GOALS name).getD (Val.intVec [])

/-- The discrete action code meaning "clean" (`_CLEAN_UP_CLEAN_ACTION`). -/
def CLEAN_UP_CLEAN_ACTION : Int := 8

/-- Initial state of `CleanupAlternateCleanFirst`: a bare step count of 0. -/
def CleanupAlternateCleanFirst.initial_state : Int := 0

/-- The window schedule of `CleanupAlternateCleanFirst._goal`. -/
def CleanupAlternateCleanFirst.goalFor (step_count : Int) : Val :=
  if step_count < 250 then cleanUpGoal "CLEAN"
  else if step_count < 500 then cleanUpGoal "EAT"
  else if step_count < 750 then cleanUpGoal "CLEAN"
  else cleanUpGoal "EAT"

/-- Model of `CleanupAlternateCleanFirst.step`. -/
def CleanupAlternateCleanFirst.step (timestep : TimeStep) (prev_state : Int) :
    TimeStep × Int :=
  let prev_state := if timestep.first then CleanupAlternateCleanFirst.initial_state
                    else prev_state
  (puppet_timestep timestep (CleanupAlternateCleanFirst.goalFor prev_state), prev_state + 1)

/-- Initial state of `CleanupAlternateEatFirst`. -/
def CleanupAlternateEatFirst.initial_state : Int := 0

/-- The window schedule of `CleanupAlternateEatFirst._goal`. -/
def CleanupAlternateEatFirst.goalFor (step_count : Int) : Val :=
  if step_count < 250 then cleanUpGoal "EAT"
  else if step_count < 500 then cleanUpGoal "CLEAN"
  else if step_count < 750 then cleanUpGoal "EAT"
  else cleanUpGoal "CLEAN"

/-- Model of `CleanupAlternateEatFirst.step`. -/
def CleanupAlternateEatFirst.step (timestep : TimeStep) (prev_state : Int) :
    TimeStep × Int :=
  let prev_state := if timestep.first then CleanupAlternateEatFirst.initial_state
                    else prev_state
  (puppet_timestep timestep (CleanupAlternateEatFirst.goalFor prev_state), prev_state + 1)

/-- Configuration of `ConditionalCleaner`: its constructor threshold. -/
structure ConditionalCleaner where
  threshold : Int

/-- The state dict of `ConditionalCleaner`. -/
structure CCState where
  step_count : Int
  clean_until : Int
  cleaning : Option (List Bool)
deriving DecidableEq, Repr

/-- Model of `ConditionalCleaner.initial_state`:
`dict(step_count=0, clean_until=0, cleaning=None)`. -/
def ConditionalCleaner.initial_state : CCState :=
  { step_count := 0, clean_until := 0, cleaning := none }

/-- The binary "is cleaning" vector
`observation['global']['actions'] == _CLEAN_UP_CLEAN_ACTION`. -/
def ConditionalCleaner.cleaningVec (ts : TimeStep) : Option (List Bool) := do
  let glob ← (dlookup ts.observation "global").bind Val.asDict
  let actions ← (dlookup glob "actions").bind Val.asIntVec
  return actions.map (fun a => decide (a = CLEAN_UP_CLEAN_ACTION))

/-- The qualifying-cleaner count of `ConditionalCleaner.step`:
`np.logical_and(not_me, np.logical_and(smooth_cleaning, near_river)).sum()`,
where `not_me = 1 - agent_slot`, `near_river` tests the second coordinate of
each `POSITION` row against 9, and `smooth_cleaning` ORs the current cleaning
vector with the previous call's snapshot (lazily the current one if absent). -/
def ConditionalCleaner.otherCleanerCount (ts : TimeStep)
    (prev_cleaning : Option (List Bool)) : Option Nat := do
  let agent_slot ← (dlookup ts.observation "agent_slot").bind Val.asIntVec
  let not_me := agent_slot.map (fun x => 1 - x)
  let glob ← (dlookup ts.observation "global").bind Val.asDict
  let gobs ← (dlookup glob "observations").bind Val.asDict
  let position ← (dlookup gobs "POSITION").bind Val.asIntMat
  let near_river := position.map (fun row => decide (row.getD 1 0 < 9))
  let cleaning ← ConditionalCleaner.cleaningVec ts
  let prev_c := prev_cleaning.getD cleaning
  let smooth_cleaning := List.zipWith (fun a b => a || b) cleaning prev_c
  let inner := List.zipWith (fun a b => a && b) smooth_cleaning near_river
  let conj := List.zipWith (fun x b => decide (x ≠ 0) && b) not_me inner
  return conj.countP id

/-- Model of `ConditionalCleaner.step`: reset on first step, re-arm
`clean_until` to `step_count + 100` when the qualifying-cleaner count reaches
the threshold, emit CLEAN while `step_count < clean_until`, advance the step
count and store the current (raw) cleaning vector as the next snapshot. -/
def ConditionalCleaner.step (c : ConditionalCleaner) (timestep : TimeStep)
    (prev_state : CCState) : Option (TimeStep × CCState) :=
  let prev := if timestep.first then ConditionalCleaner.initial_state else prev_state
  match ConditionalCleaner.cleaningVec timestep,
        ConditionalCleaner.otherCleanerCount timestep prev.cleaning with
  | some cleaning, some n =>
    let clean_until := if c.threshold ≤ (n : Int) then prev.step_count + 100
                       else prev.clean_until
    let goal := if prev.step_count < clean_until then cleanUpGoal "CLEAN"
                else cleanUpGoal "EAT"
    some (puppet_timestep timestep goal,
          { step_count := prev.step_count + 1, clean_until := clean_until,
            cleaning := some cleaning })
  | _, _ => none

/-- The two-resource goal vocabulary (`_TWO_RESOURCE_GOALS`). -/
def TWO_RESOURCE_GOALS : List (String × Val) :=
  puppet_goals ["COLLECT_COOPERATE", "COLLECT_DEFECT", "DESTROY_COOPERATE",
                "DESTROY_DEFECT", "INTERACT"]

/-- Subscript access `_TWO_RESOURCE_GOALS[name]`. -/
def twoResourceGoal (name : String) : Val :=
  (dlookup TWO_RESOURCE_GOALS name).getD (Val.intVec [])

/-- Configuration of `GrimTwoResourceInTheMatrix`: its constructor threshold
(the resource indices are the fixed fields set in `__init__`). -/
structure GrimTwoResourceInTheMatrix where
  threshold : Int

/-- `self._cooperate_resource_index`. -/
def GrimTwoResourceInTheMatrix.cooperate_resource_index : Nat := 0

/-- `self._defect_resource_index`. -/
def GrimTwoResourceInTheMatrix.defect_resource_index : Nat := 1

/-- Model of `GrimTwoResourceInTheMatrix.initial_state`: zero partner
defections. -/
def GrimTwoResourceInTheMatrix.initial_state : Int := 0

/-- Model of `_get_focal_and_partner_inventory`: rows 0 and 1 of the
`INTERACTION_INVENTORIES` observation. -/
def GrimTwoResourceInTheMatrix.get_focal_and_partner_inventory (ts : TimeStep) :
    Option (List Int × List Int) := do
  let interaction_inventories ←
    (dlookup ts.observation "INTERACTION_INVENTORIES").bind Val.asIntMat
  let focal_inventory ← interaction_inventories.get? 0
  let partner_inventory ← interaction_inventories.get? 1
  return (focal_inventory, partner_inventory)

/-- Model of `_is_defection`: the defect-resource count strictly exceeds the
cooperate-resource count. -/
def GrimTwoResourceInTheMatrix.is_defection (inventory : List Int) : Option Bool :=
  match inventory.get? GrimTwoResourceInTheMatrix.cooperate_resource_index,
        inventory.get? GrimTwoResourceInTheMatrix.defect_resource_index with
  | some num_cooperate_resources, some num_defect_resources =>
    some (decide (num_cooperate_resources < num_defect_resources))
  | _, _ => none

/-- Model of `GrimTwoResourceInTheMatrix.step`. -/
def GrimTwoResourceInTheMatrix.step (g : GrimTwoResourceInTheMatrix)
    (timestep : TimeStep) (prev_state : Int) : Option (TimeStep × Int) :=
  let prev := if timestep.first then GrimTwoResourceInTheMatrix.initial_state
              else prev_state
  match GrimTwoResourceInTheMatrix.get_focal_and_partner_inventory timestep with
  | none => none
  | some fp =>
    match GrimTwoResourceInTheMatrix.is_defection fp.2 with
    | none => none
    | some isdef =>
      let partner_defections := if isdef then prev + 1 else prev
      match (dlookup timestep.observation "INVENTORY").bind Val.asIntVec with
      | none => none
      | some inventory =>
        match inventory.get? GrimTwoResourceInTheMatrix.cooperate_resource_index,
              inventory.get? GrimTwoResourceInTheMatrix.defect_resource_index with
        | some num_cooperate_resources, some num_defect_resources =>
          let ready_to_interact :=
            decide (0 < (num_defect_resources - num_cooperate_resources).natAbs)
          let goal := if !ready_to_interact then
              (if partner_defections < g.threshold then
                twoResourceGoal "COLLECT_COOPERATE"
              else twoResourceGoal "COLLECT_DEFECT")
            else twoResourceGoal "INTERACT"
          some (puppet_timestep timestep goal, partner_defections)
        | _, _ => none

/-- A run of `GrimTwoResourceInTheMatrix.step` over non-first timesteps.
Each trace element records (state before, input timestep, output timestep,
state after), successive elements chained through the states. -/
inductive GrimRun (g : GrimTwoResourceInTheMatrix) :
    Int → List (Int × TimeStep × TimeStep × Int) → Prop where
  | nil : ∀ s, GrimRun g s []
  | cons : ∀ s ts ts' s' tr, ts.first = false →
      GrimTwoResourceInTheMatrix.step g ts s = some (ts', s') →
      GrimRun g s' tr → GrimRun g s ((s, ts, ts', s') :: tr)

/-- The state after folding `GrimTwoResourceInTheMatrix.step` over a list of
timesteps (failing if any step fails). -/
def grimRunState (g : GrimTwoResourceInTheMatrix) (tss : List TimeStep)
    (s : Int) : Option Int :=
  tss.foldlM (fun st ts => (GrimTwoResourceInTheMatrix.step g ts st).map Prod.snd) s

/-- A run of `ConditionalCleaner.step` over non-first timesteps on which the
qualifying-cleaner count stays strictly below the threshold (no re-arm).
Trace elements are (state before, input, output, state after). -/
inductive CCNoTriggerRun (c : ConditionalCleaner) :
    CCState → List (CCState × TimeStep × TimeStep × CCState) → Prop where
  | nil : ∀ s, CCNoTriggerRun c s []
  | cons : ∀ s ts n ts' s' tr, ts.first = false →
      ConditionalCleaner.otherCleanerCount ts s.cleaning = some n →
      (n : Int) < c.threshold →
      ConditionalCleaner.step c ts s = some (ts', s') →
      CCNoTriggerRun c s' tr → CCNoTriggerRun c s ((s, ts, ts', s') :: tr)

/-- States of `ConditionalCleaner` reachable from its initial state by any
sequence of successful `step` calls (first-step or not). -/
inductive CCReachable (c : ConditionalCleaner) : CCState → Prop where
  | init : CCReachable c ConditionalCleaner.initial_state
  | next : ∀ s ts ts' s', CCReachable c s →
      ConditionalCleaner.step c ts s = some (ts', s') → CCReachable c s'

lemma dlookup_append_single (d : List (String × Val)) (k key : String) (v : Val)
    (h : ∀ p ∈ d, p.1 ≠ k) :
    dlookup (d ++ [(k, v)]) key = if key = k then some v else dlookup d key := by
  induction d with
  | nil => simp [dlookup]
  | cons p rest ih =>
    have hp : p.1 ≠ k := h p (by simp)
    by_cases hkey : key = p.1
    · subst hkey
      simp [dlookup, hp]
    · simp only [List.cons_append, dlookup, if_neg hkey]
      exact ih (fun q hq => h q (by simp [hq]))

lemma dlookup_map_replace_ne (d : List (String × Val)) (k key : String) (v : Val)
    (hne : key ≠ k) :
    dlookup (d.map (fun p => if p.1 = k then (k, v) else p)) key = dlookup d key := by
  induction d with
  | nil => rfl
  | cons p rest ih =>
    by_cases hp : p.1 = k
    · simp [dlookup, hp, hne, ih]
    · by_cases hkey : key = p.1
      · simp [dlookup, hp, hkey]
      · simp [dlookup, hp, hkey, ih]

lemma dlookup_map_replace_eq (d : List (String × Val)) (k : String) (v : Val)
    (h : d.any (fun p => p.1 = k) = true) :
    dlookup (d.map (fun p => if p.1 = k then (k, v) else p)) k = some v := by
  induction d with
  | nil => simp at h
  | cons p rest ih =>
    by_cases hp : p.1 = k
    · simp [dlookup, hp]
    · have hrest : rest.any (fun p => p.1 = k) = true := by
        simp only [List.any_cons, Bool.or_eq_true] at h
        rcases h with h | h
        · exact absurd (of_decide_eq_true h) hp
        · exact h
      have hk : ¬ (k = p.1) := fun hkp => hp hkp.symm
      simp [dlookup, hp, hk, ih hrest]

/-- Lookup after a dict assignment: the assigned key reads the new value,
every other key is unaffected. -/
lemma dlookup_dinsert (d : List (String × Val)) (k key : String) (v : Val) :
    dlookup (dinsert d k v) key = if key = k then some v else dlookup d key := by
  unfold dinsert
  by_cases hany : d.any (fun p => p.1 = k) = true
  · rw [if_pos hany]
    by_cases hkey : key = k
    · subst hkey
      simp [dlookup_map_replace_eq d key v hany]
    · simp [hkey, dlookup_map_replace_ne d k key v hkey]
  · rw [if_neg hany]
    apply dlookup_append_single
    intro p hp hpk
    exact hany (List.any_eq_true.mpr ⟨p, hp, by simp [hpk]⟩)

lemma dictOfPairs_append (ps : List (String × Val)) (q : String × Val) :
    dictOfPairs (ps ++ [q]) = dinsert (dictOfPairs ps) q.1 q.2 := by
  simp [dictOfPairs, List.foldl_append]

/-- Lookup in a dict built from a pair list is last-one-wins: it returns the
value of the last pair carrying the key. -/
lemma dlookup_dictOfPairs (ps : List (String × Val)) (key : String) :
    dlookup (dictOfPairs ps) key
      = (ps.reverse.find? (fun p => p.1 = key)).map Prod.snd := by
  induction ps using List.reverseRecOn with
  | nil => rfl
  | append_singleton qs q ih =>
    rw [dictOfPairs_append, dlookup_dinsert, List.reverse_append]
    by_cases hk : key = q.1
    · subst hk
      simp
    · have hq1 : ¬ q.1 = key := fun h => hk h.symm
      simp only [List.reverse_singleton, List.singleton_append]
      rw [List.find?_cons_of_neg _ (by simpa using hq1), if_neg hk, ih]

/-- If the pair at index `i` carries key `k` and no later pair does, then the
reverse-order search finds exactly that pair. -/
lemma find_reverse_at (ps : List (String × Val)) (i : Nat) (k : String) (v : Val)
    (hget : ps.get? i = some (k, v))
    (hlast : ∀ j, i < j → ∀ q, ps.get? j = some q → q.1 ≠ k) :
    ps.reverse.find? (fun p => p.1 = k) = some (k, v) := by
  induction ps generalizing i with
  | nil => simp [List.get?] at hget
  | cons p rest ih =>
    rw [List.reverse_cons, List.find?_append]
    cases i with
    | zero =>
      have hp : p = (k, v) := by simpa [List.get?] using hget
      have hnone : rest.reverse.find? (fun p => p.1 = k) = none := by
        rw [List.find?_eq_none]
        intro x hx
        obtain ⟨m, hm⟩ := List.mem_iff_get?.mp (List.mem_reverse.mp hx)
        have := hlast (m + 1) (Nat.succ_pos m) x (by simpa [List.get?] using hm)
        simp [this]
      rw [hnone, hp]
      simp
    | succ j =>
      have hrest : rest.reverse.find? (fun p => p.1 = k) = some (k, v) := by
        refine ih j (by simpa [List.get?] using hget) ?_
        intro m hm q hq
        exact hlast (m + 1) (Nat.succ_lt_succ hm) q (by simpa [List.get?] using hq)
      rw [hrest]
      rfl

/-- Length of the pair list underlying `puppet_goals`. -/
lemma puppet_goals_pairs_length (names : List String) :
    ((names.zip (eyeRows names.length)).map
      (fun p => (p.1, Val.intVec p.2))).length = names.length := by
  simp [eyeRows]

/-- Shape of the pair at index `j` of the pair list underlying
`puppet_goals`: the `j`-th name paired with row `j` of the identity. -/
lemma puppet_goals_pairs_get (names : List String) (j : Nat)
    (hj : j < names.length) :
    ((names.zip (eyeRows names.length)).map
      (fun p => (p.1, Val.intVec p.2))).get? j
      = some (names.get ⟨j, hj⟩, Val.intVec (oneHotRow names.length j)) := by
  have hname : names[j]? = some (names.get ⟨j, hj⟩) := by
    simp [List.getElem?_eq_getElem hj]
  have hrow : (eyeRows names.length)[j]? = some (oneHotRow names.length j) := by
    simp [eyeRows, List.getElem?_map, List.getElem?_range hj]
  have hzip : (names.zip (eyeRows names.length))[j]?
      = some (names.get ⟨j, hj⟩, oneHotRow names.length j) :=
    List.getElem?_zip_eq_some.mpr ⟨hname, hrow⟩
  simp [List.get?_eq_getElem?, List.getElem?_map, hzip]

/-- Lookup in `puppet_goals` of a name whose occurrence at `i` is its last:
yields the one-hot row for index `i`. -/
lemma dlookup_puppet_goals_at (names : List String) (i : Nat) (hi : i < names.length)
    (hlast : ∀ j, i < j → ∀ hj : j < names.length,
      names.get ⟨j, hj⟩ ≠ names.get ⟨i, hi⟩) :
    dlookup (puppet_goals names) (names.get ⟨i, hi⟩)
      = some (Val.intVec (oneHotRow names.length i)) := by
  unfold puppet_goals
  rw [dlookup_dictOfPairs]
  rw [find_reverse_at _ i _ _ (puppet_goals_pairs_get names i hi) ?_]
  · rfl
  · intro j hij q hq
    by_cases hj : j < names.length
    · rw [puppet_goals_pairs_get names j hj] at hq
      cases hq
      exact hlast j hij hj
    · rw [List.get?_eq_getElem?, List.getElem?_eq_none] at hq
      · cases hq
      · rw [puppet_goals_pairs_length]
        omega

/-- The keys of `puppet_goals names` are exactly the members of `names`. -/
lemma dlookup_puppet_goals_isSome (names : List String) (name : String) :
    (dlookup (puppet_goals names) name).isSome = true ↔ name ∈ names := by
  unfold puppet_goals
  rw [dlookup_dictOfPairs, Option.isSome_map', List.find?_isSome]
  have hkeys : ((names.zip (eyeRows names.length)).map
      (fun p => (p.1, Val.intVec p.2))).map Prod.fst = names := by
    rw [List.map_map]
    have : (Prod.fst ∘ fun p : String × List Int => (p.1, Val.intVec p.2))
        = Prod.fst := rfl
    rw [this, List.map_fst_zip]
    simp [eyeRows]
  constructor
  · rintro ⟨x, hx, hpx⟩
    have hx' := List.mem_reverse.mp hx
    have : x.1 ∈ names := by
      rw [← hkeys]
      exact List.mem_map_of_mem Prod.fst hx'
    simpa [of_decide_eq_true hpx] using this
  · intro hname
    rw [← hkeys] at hname
    obtain ⟨x, hx, hfst⟩ := List.mem_map.mp hname
    exact ⟨x, List.mem_reverse.mpr hx, by simp [hfst]⟩

/-- Length of a one-hot row. -/
lemma oneHotRow_length (n i : Nat) : (oneHotRow n i).length = n := by
  simp [oneHotRow]

/-- The entry of a one-hot row at its hot index is 1. -/
lemma oneHotRow_get_hot (n i : Nat) (h : i < n) :
    (oneHotRow n i).get? i = some 1 := by
  simp [oneHotRow, List.get?_eq_getElem?, List.getElem?_map, List.getElem?_range h]

/-- Every entry of a one-hot row is 0 or 1. -/
lemma oneHotRow_mem (n i : Nat) : ∀ x ∈ oneHotRow n i, x = 0 ∨ x = 1 := by
  intro x hx
  simp only [oneHotRow, List.mem_map, List.mem_range] at hx
  obtain ⟨j, _, hval⟩ := hx
  by_cases hji : j = i
  · right
    rw [← hval, if_pos hji]
  · left
    rw [← hval, if_neg hji]

/-- A one-hot row has exactly one nonzero entry. -/
lemma oneHotRow_countP (n i : Nat) (h : i < n) :
    (oneHotRow n i).countP (fun x => x ≠ 0) = 1 := by
  unfold oneHotRow
  rw [List.countP_map]
  have hgen : ∀ l : List Nat, l.Nodup → i ∈ l →
      l.countP ((fun x : Int => decide (x ≠ 0)) ∘ fun j => if j = i then 1 else 0)
        = 1 := by
    intro l hnd hmem
    induction l with
    | nil => simp at hmem
    | cons a rest ih =>
      rw [List.countP_cons]
      by_cases ha : a = i
      · subst ha
        have hnotmem : a ∉ rest := (List.nodup_cons.mp hnd).1
        have hz : rest.countP
            ((fun x : Int => decide (x ≠ 0)) ∘ fun j => if j = a then 1 else 0)
              = 0 := by
          rw [List.countP_eq_zero]
          intro b hb
          have hba : b ≠ a := fun hba => hnotmem (hba ▸ hb)
          simp [Function.comp, hba]
        rw [hz]
        simp [Function.comp]
      · have hmem' : i ∈ rest := by
          rcases List.mem_cons.mp hmem with h | h
          · exact absurd h.symm ha
          · exact h
        rw [ih (List.nodup_cons.mp hnd).2 hmem']
        simp [Function.comp, ha]
  exact hgen (List.range n) (List.nodup_range n) (List.mem_range.mpr h)

/-- Distinct one-hot rows are orthogonal. -/
lemma oneHotRow_orth (n i j : Nat) (hij : i ≠ j) :
    dotInt (oneHotRow n i) (oneHotRow n j) = 0 := by
  unfold dotInt oneHotRow
  rw [List.zipWith_map, List.zipWith_same]
  apply List.sum_eq_zero
  intro x hx
  obtain ⟨m, _, hval⟩ := List.mem_map.mp hx
  by_cases hmi : m = i
  · have hmj : ¬ m = j := fun hmj => hij (hmi ▸ hmj ▸ rfl)
    rw [← hval, if_pos hmi, if_neg hmj, mul_zero]
  · rw [← hval, if_neg hmi, zero_mul]

/-- Concrete form of the CLEAN goal vector. -/
lemma cleanUpGoal_CLEAN : cleanUpGoal "CLEAN" = Val.intVec [1, 0] := rfl

/-- Concrete form of the EAT goal vector. -/
lemma cleanUpGoal_EAT : cleanUpGoal "EAT" = Val.intVec [0, 1] := rfl

/-- The CLEAN and EAT goal vectors are distinct. -/
lemma cleanUpGoal_CLEAN_ne_EAT : cleanUpGoal "CLEAN" ≠ cleanUpGoal "EAT" := by
  rw [cleanUpGoal_CLEAN, cleanUpGoal_EAT]
  intro h
  have := Val.intVec.inj h
  simp at this

/-- Concrete form of the COLLECT_COOPERATE goal vector. -/
lemma twoResourceGoal_COOPERATE :
    twoResourceGoal "COLLECT_COOPERATE" = Val.intVec [1, 0, 0, 0, 0] := rfl

/-- Concrete form of the COLLECT_DEFECT goal vector. -/
lemma twoResourceGoal_DEFECT :
    twoResourceGoal "COLLECT_DEFECT" = Val.intVec [0, 1, 0, 0, 0] := rfl

/-- Concrete form of the INTERACT goal vector. -/
lemma twoResourceGoal_INTERACT :
    twoResourceGoal "INTERACT" = Val.intVec [0, 0, 0, 0, 1] := rfl

/-- COLLECT_COOPERATE differs from COLLECT_DEFECT. -/
lemma twoResourceGoal_COOPERATE_ne_DEFECT :
    twoResourceGoal "COLLECT_COOPERATE" ≠ twoResourceGoal "COLLECT_DEFECT" := by
  rw [twoResourceGoal_COOPERATE, twoResourceGoal_DEFECT]
  intro h
  have := Val.intVec.inj h
  simp at this

/-- COLLECT_COOPERATE differs from INTERACT. -/
lemma twoResourceGoal_COOPERATE_ne_INTERACT :
    twoResourceGoal "COLLECT_COOPERATE" ≠ twoResourceGoal "INTERACT" := by
  rw [twoResourceGoal_COOPERATE, twoResourceGoal_INTERACT]
  intro h
  have := Val.intVec.inj h
  simp at this

/-- C1: on a first-step timestep, every one of the four concrete puppeteers
ignores the supplied `prev_state` and behaves exactly as if `prev_state`
were `initial_state()` — the returned augmented timestep and next state
coincide. -/
theorem C1_reset_on_first_step (ts : TimeStep) (h : ts.first = true) :
    (∀ p : Int, CleanupAlternateCleanFirst.step ts p
        = CleanupAlternateCleanFirst.step ts CleanupAlternateCleanFirst.initial_state) ∧
    (∀ p : Int, CleanupAlternateEatFirst.step ts p
        = CleanupAlternateEatFirst.step ts CleanupAlternateEatFirst.initial_state) ∧
    (∀ (c : ConditionalCleaner) (p : CCState), ConditionalCleaner.step c ts p
        = ConditionalCleaner.step c ts ConditionalCleaner.initial_state) ∧
    (∀ (g : GrimTwoResourceInTheMatrix) (p : Int), GrimTwoResourceInTheMatrix.step g ts p
        = GrimTwoResourceInTheMatrix.step g ts GrimTwoResourceInTheMatrix.initial_state) := by
  refine ⟨fun p => ?_, fun p => ?_, fun c p => ?_, fun g p => ?_⟩
  · simp [CleanupAlternateCleanFirst.step, h]
  · simp [CleanupAlternateEatFirst.step, h]
  · simp [ConditionalCleaner.step, h]
  · simp [GrimTwoResourceInTheMatrix.step, h]

/-- Concrete first-step timestep used by the C1 witness. -/
def tsFirstW : TimeStep :=
  { step_type := StepType.FIRST, reward := 0, discount := 1,
    observation := [("x", Val.intVec [3])] }

/-- Witness for C1 at a concrete first-step timestep and concrete states. -/
theorem C1_reset_on_first_step_witness :
    tsFirstW.first = true ∧
    CleanupAlternateCleanFirst.step tsFirstW 5
      = CleanupAlternateCleanFirst.step tsFirstW CleanupAlternateCleanFirst.initial_state ∧
    CleanupAlternateEatFirst.step tsFirstW 7
      = CleanupAlternateEatFirst.step tsFirstW CleanupAlternateEatFirst.initial_state ∧
    ConditionalCleaner.step ⟨2⟩ tsFirstW ⟨5, 3, some [true]⟩
      = ConditionalCleaner.step ⟨2⟩ tsFirstW ConditionalCleaner.initial_state ∧
    GrimTwoResourceInTheMatrix.step ⟨3⟩ tsFirstW 4
      = GrimTwoResourceInTheMatrix.step ⟨3⟩ tsFirstW GrimTwoResourceInTheMatrix.initial_state :=
  ⟨rfl,
   (C1_reset_on_first_step tsFirstW rfl).1 5,
   (C1_reset_on_first_step tsFirstW rfl).2.1 7,
   (C1_reset_on_first_step tsFirstW rfl).2.2.1 ⟨2⟩ ⟨5, 3, some [true]⟩,
   (C1_reset_on_first_step tsFirstW rfl).2.2.2 ⟨3⟩ 4⟩

/-- C3: the clean-first alternator's schedule at the window boundaries, and the
eat-first alternator is its exact complement at every step count. -/
theorem C3_alternator_schedule :
    CleanupAlternateCleanFirst.goalFor 0 = cleanUpGoal "CLEAN" ∧
    CleanupAlternateCleanFirst.goalFor 249 = cleanUpGoal "CLEAN" ∧
    CleanupAlternateCleanFirst.goalFor 250 = cleanUpGoal "EAT" ∧
    CleanupAlternateCleanFirst.goalFor 499 = cleanUpGoal "EAT" ∧
    CleanupAlternateCleanFirst.goalFor 500 = cleanUpGoal "CLEAN" ∧
    CleanupAlternateCleanFirst.goalFor 749 = cleanUpGoal "CLEAN" ∧
    CleanupAlternateCleanFirst.goalFor 750 = cleanUpGoal "EAT" ∧
    CleanupAlternateCleanFirst.goalFor 1000 = cleanUpGoal "EAT" ∧
    ∀ n : Int,
      (CleanupAlternateEatFirst.goalFor n = cleanUpGoal "EAT"
        ↔ CleanupAlternateCleanFirst.goalFor n = cleanUpGoal "CLEAN") ∧
      (CleanupAlternateEatFirst.goalFor n = cleanUpGoal "CLEAN"
        ↔ CleanupAlternateCleanFirst.goalFor n = cleanUpGoal "EAT") := by
  refine ⟨rfl, rfl, rfl, rfl, rfl, rfl, rfl, rfl, fun n => ?_⟩
  have h1 := cleanUpGoal_CLEAN_ne_EAT
  have h2 := cleanUpGoal_CLEAN_ne_EAT.symm
  unfold CleanupAlternateEatFirst.goalFor CleanupAlternateCleanFirst.goalFor
  split_ifs <;> simp [h1, h2]

/-- C7: `puppet_timestep` binds the reserved `GOAL` key to the goal
(overwriting any existing binding), leaves every other observation key bound
to its original value, and preserves the step type, reward and discount. The
embedding is pure, so the input timestep and observation are never mutated. -/
theorem C7_puppet_timestep_augments (timestep : TimeStep) (goal : Val) :
    dlookup (puppet_timestep timestep goal).observation GOAL_OBSERVATION_KEY
      = some goal ∧
    (∀ k, k ≠ GOAL_OBSERVATION_KEY →
      dlookup (puppet_timestep timestep goal).observation k
        = dlookup timestep.observation k) ∧
    (puppet_timestep timestep goal).step_type = timestep.step_type ∧
    (puppet_timestep timestep goal).reward = timestep.reward ∧
    (puppet_timestep timestep goal).discount = timestep.discount := by
  refine ⟨?_, fun k hk => ?_, rfl, rfl, rfl⟩
  · simp [puppet_timestep, dlookup_dinsert]
  · simp [puppet_timestep, dlookup_dinsert, hk]

/-- Concrete timestep used by the C7 witness; its observation already holds a
`GOAL` entry, exercising the overwrite case. -/
def tsGoalW : TimeStep :=
  { step_type := StepType.MID, reward := 2, discount := 3,
    observation := [("x", Val.intVec [5]), ("GOAL", Val.intVec [9])] }

/-- Witness for C7 at a concrete timestep (with a pre-existing `GOAL` key)
and a concrete non-`GOAL` key. -/
theorem C7_puppet_timestep_augments_witness :
    dlookup (puppet_timestep tsGoalW (Val.intVec [1, 0])).observation
        GOAL_OBSERVATION_KEY = some (Val.intVec [1, 0]) ∧
    ("x" : String) ≠ GOAL_OBSERVATION_KEY ∧
    dlookup (puppet_timestep tsGoalW (Val.intVec [1, 0])).observation "x"
      = dlookup tsGoalW.observation "x" ∧
    (puppet_timestep tsGoalW (Val.intVec [1, 0])).step_type = tsGoalW.step_type :=
  ⟨(C7_puppet_timestep_augments tsGoalW (Val.intVec [1, 0])).1,
   by decide,
   (C7_puppet_timestep_augments tsGoalW (Val.intVec [1, 0])).2.1 "x" (by decide),
   (C7_puppet_timestep_augments tsGoalW (Val.intVec [1, 0])).2.2.1⟩

/-- C2: for distinct names, `puppet_goals` maps each name to the one-hot
vector at its index; that vector has length equal to the number of names,
carries a 1 at the name's index, has exactly one nonzero entry, and is
orthogonal to every other name's vector. -/
theorem C2_one_hot_goals (names : List String) (hnd : names.Nodup)
    (i : Fin names.length) :
    dlookup (puppet_goals names) (names.get i)
      = some (Val.intVec (oneHotRow names.length i)) ∧
    (oneHotRow names.length i).length = names.length ∧
    (oneHotRow names.length i).get? i = some 1 ∧
    (oneHotRow names.length i).countP (fun x => x ≠ 0) = 1 ∧
    ∀ j : Fin names.length, j ≠ i →
      dotInt (oneHotRow names.length i) (oneHotRow names.length j) = 0 := by
  refine ⟨?_, oneHotRow_length _ _, oneHotRow_get_hot _ _ i.isLt,
    oneHotRow_countP _ _ i.isLt,
    fun j hj => oneHotRow_orth _ _ _ (fun h => hj (Fin.ext h.symm))⟩
  refine dlookup_puppet_goals_at names i.1 i.isLt ?_
  intro j hij hj hEq
  have : (⟨j, hj⟩ : Fin names.length) = ⟨i.1, i.isLt⟩ :=
    (List.Nodup.get_inj_iff hnd).mp hEq
  have hji : j = i.1 := congrArg Fin.val this
  omega

/-- Witness for C2 on the concrete vocabulary of the cleanup puppeteers. -/
theorem C2_one_hot_goals_witness :
    (["CLEAN", "EAT"] : List String).Nodup ∧
    (dlookup (puppet_goals ["CLEAN", "EAT"])
        ((["CLEAN", "EAT"] : List String).get ⟨0, by decide⟩)
      = some (Val.intVec (oneHotRow 2 0)) ∧
    (oneHotRow 2 0).length = 2 ∧
    (oneHotRow 2 0).get? 0 = some 1 ∧
    (oneHotRow 2 0).countP (fun x => x ≠ 0) = 1 ∧
    ∀ j : Fin 2, j ≠ ⟨0, by decide⟩ →
      dotInt (oneHotRow 2 0) (oneHotRow 2 j) = 0) :=
  ⟨by decide, C2_one_hot_goals ["CLEAN", "EAT"] (by decide) ⟨0, by decide⟩⟩

/-- C8: with duplicate names, `puppet_goals` still succeeds; its keys are
exactly the distinct names, and any name whose occurrence at `i` is its last
is bound to the one-hot vector of index `i` (last-one-wins). -/
theorem C8_duplicate_names (names : List String) :
    (∀ name, (dlookup (puppet_goals names) name).isSome = true ↔ name ∈ names) ∧
    (∀ i : Fin names.length,
      (∀ j : Fin names.length, i < j → names.get j ≠ names.get i) →
      dlookup (puppet_goals names) (names.get i)
        = some (Val.intVec (oneHotRow names.length i))) := by
  refine ⟨dlookup_puppet_goals_isSome names, fun i hlast => ?_⟩
  exact dlookup_puppet_goals_at names i.1 i.isLt
    (fun j hij hj => hlast ⟨j, hj⟩ hij)

/-- Witness for C8 on a name list with a duplicate: the duplicated name reads
back the one-hot vector of its last occurrence. -/
theorem C8_duplicate_names_witness :
    ((dlookup (puppet_goals ["A", "B", "A"]) "A").isSome = true
      ↔ "A" ∈ (["A", "B", "A"] : List String)) ∧
    dlookup (puppet_goals ["A", "B", "A"])
        ((["A", "B", "A"] : List String).get ⟨2, by decide⟩)
      = some (Val.intVec (oneHotRow 3 2)) :=
  ⟨(C8_duplicate_names ["A", "B", "A"]).1 "A",
   (C8_duplicate_names ["A", "B", "A"]).2 ⟨2, by decide⟩ (by decide)⟩

/-- The goal attached by `puppet_timestep` reads back unchanged. -/
lemma goalOf_puppet_timestep (ts : TimeStep) (goal : Val) :
    goalOf (puppet_timestep ts goal) = some goal := by
  simp [goalOf, puppet_timestep, dlookup_dinsert]

/-- Anatomy of a successful non-first Grim step: the state stays or grows by
one, and the emitted goal is INTERACT, or COLLECT_COOPERATE exactly when the
updated defection count is below the threshold, or COLLECT_DEFECT when it is
not. -/
lemma grim_step_cases (g : GrimTwoResourceInTheMatrix) (ts : TimeStep)
    (s : Int) (ts' : TimeStep) (s' : Int)
    (hfirst : ts.first = false)
    (h : GrimTwoResourceInTheMatrix.step g ts s = some (ts', s')) :
    (s' = s ∨ s' = s + 1) ∧
    (goalOf ts' = some (twoResourceGoal "INTERACT") ∨
     (s' < g.threshold ∧ goalOf ts' = some (twoResourceGoal "COLLECT_COOPERATE")) ∨
     (g.threshold ≤ s' ∧ goalOf ts' = some (twoResourceGoal "COLLECT_DEFECT"))) := by
  unfold GrimTwoResourceInTheMatrix.step at h
  simp only [hfirst, Bool.false_eq_true, if_false] at h
  split at h
  · cases h
  · split at h
    · cases h
    · rename_i fp hfp isdef hdef
      split at h
      · cases h
      · rename_i inventory hinv
        split at h
        · rename_i num_c num_d hc hd
          simp only [Option.some.injEq, Prod.mk.injEq] at h
          obtain ⟨hts', hs'⟩ := h
          have hstate : s' = s ∨ s' = s + 1 := by
            cases isdef <;> simp at hs' <;> omega
          refine ⟨hstate, ?_⟩
          rw [← hts', goalOf_puppet_timestep, hs']
          by_cases hready : (!decide (0 < (num_d - num_c).natAbs)) = true
          · by_cases hlt : s' < g.threshold
            · right; left
              exact ⟨hlt, by rw [if_pos hready, if_pos hlt]⟩
            · right; right
              exact ⟨by omega, by rw [if_pos hready, if_neg hlt]⟩
          · left
            rw [if_neg hready]
        · cases h

/-- C6: along any within-episode run of the Grim puppeteer (non-first steps),
the defection count never decreases; and once the starting count has reached
the threshold, every emitted goal differs from COLLECT_COOPERATE and is
COLLECT_DEFECT or INTERACT, whatever the observed inventories. -/
theorem C6_grim_trigger_monotonic (g : GrimTwoResourceInTheMatrix) (s0 : Int)
    (tr : List (Int × TimeStep × TimeStep × Int)) (hrun : GrimRun g s0 tr) :
    (∀ e ∈ tr, e.1 ≤ e.2.2.2) ∧
    (g.threshold ≤ s0 → ∀ e ∈ tr,
      g.threshold ≤ e.1 ∧
      goalOf e.2.2.1 ≠ some (twoResourceGoal "COLLECT_COOPERATE") ∧
      (goalOf e.2.2.1 = some (twoResourceGoal "COLLECT_DEFECT") ∨
       goalOf e.2.2.1 = some (twoResourceGoal "INTERACT"))) := by
  induction hrun with
  | nil s => exact ⟨by simp, fun _ => by simp⟩
  | cons s ts ts' s' tr hfirst hstep htr ih =>
    obtain ⟨hmono, hgoal⟩ := grim_step_cases g ts s ts' s' hfirst hstep
    have hss' : s ≤ s' := by omega
    constructor
    · intro e he
      rcases List.mem_cons.mp he with rfl | he'
      · exact hss'
      · exact ih.1 e he'
    · intro hth e he
      have hth' : g.threshold ≤ s' := le_trans hth hss'
      rcases List.mem_cons.mp he with rfl | he'
      · refine ⟨hth, ?_, ?_⟩
        · rcases hgoal with hI | ⟨hlt, _⟩ | ⟨_, hD⟩
          · rw [hI]
            intro hEq
            exact twoResourceGoal_COOPERATE_ne_INTERACT
              ((Option.some.inj hEq).symm)
          · omega
          · rw [hD]
            intro hEq
            exact twoResourceGoal_COOPERATE_ne_DEFECT
              ((Option.some.inj hEq).symm)
        · rcases hgoal with hI | ⟨hlt, _⟩ | ⟨_, hD⟩
          · right; exact hI
          · omega
          · left; exact hD
      · exact ih.2 hth' e he'

/-- Grim step on a defection observation: the state advances by exactly one,
whatever the previous state (part of C9). -/
lemma grim_step_defection_state (g : GrimTwoResourceInTheMatrix) (ts : TimeStep)
    (focal partner inventory : List Int) (pc pd num_c num_d : Int)
    (hfirst : ts.first = false)
    (hfp : GrimTwoResourceInTheMatrix.get_focal_and_partner_inventory ts
      = some (focal, partner))
    (hpc : partner.get? 0 = some pc) (hpd : partner.get? 1 = some pd)
    (hdef : pc < pd)
    (hinv : (dlookup ts.observation "INVENTORY").bind Val.asIntVec = some inventory)
    (hc : inventory.get? 0 = some num_c) (hd : inventory.get? 1 = some num_d) :
    ∀ s : Int, (GrimTwoResourceInTheMatrix.step g ts s).map Prod.snd = some (s + 1) := by
  intro s
  have hisdef : GrimTwoResourceInTheMatrix.is_defection partner = some true := by
    unfold GrimTwoResourceInTheMatrix.is_defection
    unfold GrimTwoResourceInTheMatrix.cooperate_resource_index
      GrimTwoResourceInTheMatrix.defect_resource_index
    rw [hpc, hpd]
    simp [hdef]
  unfold GrimTwoResourceInTheMatrix.step
  simp only [hfirst, Bool.false_eq_true, if_false]
  rw [hfp]
  simp only []
  rw [hisdef]
  simp only []
  rw [hinv]
  simp only []
  unfold GrimTwoResourceInTheMatrix.cooperate_resource_index
    GrimTwoResourceInTheMatrix.defect_resource_index
  rw [hc, hd]
  simp

/-- C9: on a non-first step whose interaction record's partner row counts
more defect resource (index 1) than cooperate resource (index 0), the Grim
step increments the state by one regardless of the previous state, so the
same record persisting for `n` consecutive steps adds `n` defections. -/
theorem C9_defection_counted_every_step (g : GrimTwoResourceInTheMatrix)
    (ts : TimeStep) (focal partner inventory : List Int) (pc pd num_c num_d : Int)
    (hfirst : ts.first = false)
    (hfp : GrimTwoResourceInTheMatrix.get_focal_and_partner_inventory ts
      = some (focal, partner))
    (hpc : partner.get? 0 = some pc) (hpd : partner.get? 1 = some pd)
    (hdef : pc < pd)
    (hinv : (dlookup ts.observation "INVENTORY").bind Val.asIntVec = some inventory)
    (hc : inventory.get? 0 = some num_c) (hd : inventory.get? 1 = some num_d) :
    (∀ s : Int, (GrimTwoResourceInTheMatrix.step g ts s).map Prod.snd = some (s + 1)) ∧
    (∀ (s : Int) (n : Nat),
      grimRunState g (List.replicate n ts) s = some (s + n)) := by
  have hone := grim_step_defection_state g ts focal partner inventory pc pd
    num_c num_d hfirst hfp hpc hpd hdef hinv hc hd
  refine ⟨hone, fun s n => ?_⟩
  induction n generalizing s with
  | zero => simp [grimRunState]
  | succ m ih =>
    rw [List.replicate_succ]
    unfold grimRunState
    rw [List.foldlM_cons]
    unfold grimRunState at ih
    rw [hone s]
    have harith : s + 1 + (m : Int) = s + ((m + 1 : Nat) : Int) := by
      push_cast
      ring
    calc (some (s + 1) >>= fun st =>
            List.foldlM (fun st ts =>
              (GrimTwoResourceInTheMatrix.step g ts st).map Prod.snd)
              st (List.replicate m ts))
        = List.foldlM (fun st ts =>
            (GrimTwoResourceInTheMatrix.step g ts st).map Prod.snd)
            (s + 1) (List.replicate m ts) := by rfl
      _ = some (s + 1 + (m : Int)) := ih (s + 1)
      _ = some (s + ((m + 1 : Nat) : Int)) := by rw [harith]

/-- Concrete timestep used by the Grim witnesses: the partner row of the
interaction record shows a defection, and the focal inventory is balanced. -/
def tsGrimW : TimeStep :=
  { step_type := StepType.MID, reward := 0, discount := 1,
    observation := [("INTERACTION_INVENTORIES", Val.intMat [[0, 0], [0, 1]]),
                    ("INVENTORY", Val.intVec [0, 0])] }

/-- Witness for C9 at the concrete timestep: one step adds one defection and
two repeated steps add two. -/
theorem C9_defection_counted_every_step_witness :
    (GrimTwoResourceInTheMatrix.step ⟨2⟩ tsGrimW 0).map Prod.snd = some 1 ∧
    grimRunState ⟨2⟩ (List.replicate 2 tsGrimW) 0 = some 2 := by
  have h := C9_defection_counted_every_step ⟨2⟩ tsGrimW [0, 0] [0, 1] [0, 0]
    0 1 0 0 rfl rfl rfl rfl (by decide) rfl rfl rfl
  refine ⟨by simpa using h.1 0, ?_⟩
  have h2 := h.2 0 2
  simpa using h2

/-- Witness for C6: a one-element run starting at the threshold emits
COLLECT_DEFECT, not COLLECT_COOPERATE. -/
theorem C6_grim_trigger_monotonic_witness :
    GrimRun ⟨1⟩ 1
      [(1, tsGrimW, puppet_timestep tsGrimW (twoResourceGoal "COLLECT_DEFECT"), 2)] ∧
    (1 : Int) ≤ 2 ∧
    goalOf (puppet_timestep tsGrimW (twoResourceGoal "COLLECT_DEFECT"))
      ≠ some (twoResourceGoal "COLLECT_COOPERATE") := by
  have hstep : GrimTwoResourceInTheMatrix.step ⟨1⟩ tsGrimW 1
      = some (puppet_timestep tsGrimW (twoResourceGoal "COLLECT_DEFECT"), 2) := rfl
  have hrun : GrimRun ⟨1⟩ 1
      [(1, tsGrimW, puppet_timestep tsGrimW (twoResourceGoal "COLLECT_DEFECT"), 2)] :=
    GrimRun.cons 1 tsGrimW _ 2 [] rfl hstep (GrimRun.nil 2)
  have hc := C6_grim_trigger_monotonic ⟨1⟩ 1 _ hrun
  refine ⟨hrun, ?_, ?_⟩
  · exact hc.1 _ (List.mem_singleton.mpr rfl)
  · have := hc.2 (le_refl 1) _ (List.mem_singleton.mpr rfl)
    exact this.2.1

/-- Anatomy of a successful `ConditionalCleaner.step`: with `eff` the state
after the first-step reset, the next state advances `eff.step_count` by one,
re-arms `clean_until` exactly when the count reaches the threshold, stores
the raw cleaning vector, and the goal is CLEAN iff `eff.step_count` is below
the (possibly re-armed) `clean_until`. -/
lemma cc_step_anatomy (c : ConditionalCleaner) (ts : TimeStep) (s : CCState)
    (ts' : TimeStep) (s' : CCState)
    (h : ConditionalCleaner.step c ts s = some (ts', s')) :
    ∃ cl n,
      ConditionalCleaner.cleaningVec ts = some cl ∧
      ConditionalCleaner.otherCleanerCount ts
        (if ts.first then ConditionalCleaner.initial_state else s).cleaning
        = some n ∧
      s' = { step_count :=
               (if ts.first then ConditionalCleaner.initial_state else s).step_count + 1,
             clean_until :=
               if c.threshold ≤ (n : Int) then
                 (if ts.first then ConditionalCleaner.initial_state else s).step_count + 100
               else (if ts.first then ConditionalCleaner.initial_state else s).clean_until,
             cleaning := some cl } ∧
      ts' = puppet_timestep ts
        (if (if ts.first then ConditionalCleaner.initial_state else s).step_count
            < s'.clean_until
         then cleanUpGoal "CLEAN" else cleanUpGoal "EAT") := by
  simp only [ConditionalCleaner.step] at h
  split at h
  · rename_i cleaning n hcl hcnt
    simp only [Option.some.injEq, Prod.mk.injEq] at h
    obtain ⟨hts', hs'⟩ := h
    refine ⟨cleaning, n, hcl, hcnt, hs'.symm, ?_⟩
    rw [← hts', ← hs']
  · cases h

/-- Specialization of the step anatomy to non-first steps. -/
lemma cc_step_nonfirst (c : ConditionalCleaner) (ts : TimeStep) (s : CCState)
    (ts' : TimeStep) (s' : CCState)
    (hfirst : ts.first = false)
    (h : ConditionalCleaner.step c ts s = some (ts', s')) :
    ∃ cl n,
      ConditionalCleaner.cleaningVec ts = some cl ∧
      ConditionalCleaner.otherCleanerCount ts s.cleaning = some n ∧
      s' = { step_count := s.step_count + 1,
             clean_until :=
               if c.threshold ≤ (n : Int) then s.step_count + 100
               else s.clean_until,
             cleaning := some cl } ∧
      ts' = puppet_timestep ts
        (if s.step_count < s'.clean_until
         then cleanUpGoal "CLEAN" else cleanUpGoal "EAT") := by
  have := cc_step_anatomy c ts s ts' s' h
  simpa only [hfirst, Bool.false_eq_true, if_false] using this

/-- Along a no-trigger run, `clean_until` stays fixed and every emitted goal
is CLEAN exactly while the pre-step `step_count` is below it, EAT otherwise. -/
lemma cc_notrigger_run_inv (c : ConditionalCleaner) (s : CCState)
    (tr : List (CCState × TimeStep × TimeStep × CCState)) (u : Int)
    (hrun : CCNoTriggerRun c s tr) :
    s.clean_until = u → ∀ e ∈ tr,
      e.2.2.2.clean_until = u ∧
      (goalOf e.2.2.1 = some (cleanUpGoal "CLEAN") ↔ e.1.step_count < u) ∧
      (goalOf e.2.2.1 = some (cleanUpGoal "EAT") ↔ u ≤ e.1.step_count) := by
  induction hrun with
  | nil s => intro _ e he; cases he
  | cons s ts n ts' s' tr hfirst hcount hlt hstep htr ih =>
    intro hu e he
    obtain ⟨cl, n', hcl, hcount', hs', hts'⟩ :=
      cc_step_nonfirst c ts s ts' s' hfirst hstep
    have hn : n' = n := by
      rw [hcount] at hcount'
      exact (Option.some.inj hcount').symm
    have hno : ¬ c.threshold ≤ (n' : Int) := by omega
    have hcu : s'.clean_until = u := by
      rw [hs']
      simp only [if_neg hno]
      exact hu
    rcases List.mem_cons.mp he with rfl | he'
    · dsimp only
      refine ⟨hcu, ?_, ?_⟩
      · rw [hts', goalOf_puppet_timestep, hcu]
        by_cases hsc : s.step_count < u
        · rw [if_pos hsc]
          exact iff_of_true rfl hsc
        · rw [if_neg hsc]
          exact iff_of_false
            (fun hEq => cleanUpGoal_CLEAN_ne_EAT (Option.some.inj hEq).symm) hsc
      · rw [hts', goalOf_puppet_timestep, hcu]
        by_cases hsc : s.step_count < u
        · rw [if_pos hsc]
          exact iff_of_false
            (fun hEq => cleanUpGoal_CLEAN_ne_EAT (Option.some.inj hEq))
            (by omega)
        · rw [if_neg hsc]
          exact iff_of_true rfl (by omega)
    · exact ih hcu e he'

/-- C4: if on a non-first step with step count `t` the qualifying-cleaner
count reaches the threshold, `clean_until` re-arms to `t + 100`, that step
emits CLEAN, and along any subsequent no-trigger run the goal is CLEAN
exactly while the step count stays below `t + 100` and EAT from `t + 100`
onward. -/
theorem C4_clean_rearm_window (c : ConditionalCleaner) (ts0 : TimeStep)
    (s0 : CCState) (n0 : Nat) (ts0' : TimeStep) (s1 : CCState) (t : Int)
    (tr : List (CCState × TimeStep × TimeStep × CCState))
    (hfirst : ts0.first = false)
    (ht : s0.step_count = t)
    (hcount : ConditionalCleaner.otherCleanerCount ts0 s0.cleaning = some n0)
    (hth : c.threshold ≤ (n0 : Int))
    (hstep : ConditionalCleaner.step c ts0 s0 = some (ts0', s1))
    (hrun : CCNoTriggerRun c s1 tr) :
    s1.clean_until = t + 100 ∧
    goalOf ts0' = some (cleanUpGoal "CLEAN") ∧
    ∀ e ∈ tr,
      e.2.2.2.clean_until = t + 100 ∧
      (goalOf e.2.2.1 = some (cleanUpGoal "CLEAN") ↔ e.1.step_count < t + 100) ∧
      (goalOf e.2.2.1 = some (cleanUpGoal "EAT") ↔ t + 100 ≤ e.1.step_count) := by
  obtain ⟨cl, n', hcl, hcount', hs1, hts0'⟩ :=
    cc_step_nonfirst c ts0 s0 ts0' s1 hfirst hstep
  have hn : n' = n0 := by
    rw [hcount] at hcount'
    exact (Option.some.inj hcount').symm
  have hyes : c.threshold ≤ (n' : Int) := by omega
  have hcu : s1.clean_until = t + 100 := by
    rw [hs1]
    dsimp only
    rw [if_pos hyes, ht]
  refine ⟨hcu, ?_, cc_notrigger_run_inv c s1 tr (t + 100) hrun hcu⟩
  rw [hts0', goalOf_puppet_timestep, if_pos (by omega : s0.step_count < s1.clean_until)]

/-- Single-agent observation used by the C5 input (the lone agent is self
and is not cleaning this frame). -/
def tsCCW : TimeStep :=
  { step_type := StepType.MID, reward := 0, discount := 1,
    observation :=
      [("agent_slot", Val.intVec [1]),
       ("global", Val.dict
          [("observations", Val.dict [("POSITION", Val.intMat [[0, 0]])]),
           ("actions", Val.intVec [0])])] }

/-- Counterexample to C5 as stated: on this call the stored snapshot is the
raw cleaning vector `[false]`, while the smoothed vector (OR of current and
previous snapshot) is `[true]`; the two differ. -/
theorem C5_smoothed_snapshot_cex :
    (ConditionalCleaner.step ⟨1⟩ tsCCW ⟨0, 0, some [true]⟩).map
        (fun r => r.2.cleaning) = some (some [false]) ∧
    ConditionalCleaner.cleaningVec tsCCW = some [false] ∧
    CCState.cleaning ⟨0, 0, some [true]⟩ = some [true] ∧
    List.zipWith (fun a b => a || b) [false] [true] = [true] ∧
    some [false] ≠ some [true] :=
  ⟨rfl, rfl, rfl, rfl, by decide⟩

/-- C5 (amended): every successful `ConditionalCleaner.step` stores, as the
next call's snapshot, the current observation's raw is-cleaning vector — not
its OR with the previous snapshot. -/
theorem C5_snapshot_is_raw_cleaning (c : ConditionalCleaner) (ts : TimeStep)
    (s : CCState) (ts' : TimeStep) (s' : CCState) (cl : List Bool)
    (h : ConditionalCleaner.step c ts s = some (ts', s'))
    (hcl : ConditionalCleaner.cleaningVec ts = some cl) :
    s'.cleaning = some cl := by
  obtain ⟨cl', n, hcl', _, hs', _⟩ := cc_step_anatomy c ts s ts' s' h
  rw [hcl] at hcl'
  rw [hs']
  dsimp only
  rw [Option.some.inj hcl']

/-- Witness for the amended C5 at a concrete call. -/
theorem C5_snapshot_is_raw_cleaning_witness :
    ConditionalCleaner.step ⟨1⟩ tsCCW ⟨0, 0, some [true]⟩
      = some (puppet_timestep tsCCW (cleanUpGoal "EAT"), ⟨1, 0, some [false]⟩) ∧
    CCState.cleaning ⟨1, 0, some [false]⟩ = some [false] :=
  ⟨rfl, C5_snapshot_is_raw_cleaning ⟨1⟩ tsCCW ⟨0, 0, some [true]⟩
    (puppet_timestep tsCCW (cleanUpGoal "EAT")) ⟨1, 0, some [false]⟩ [false] rfl rfl⟩

/-- Two-agent observation in which the other agent cleans near the river:
the qualifying-cleaner count is 1. -/
def tsCCTrigW : TimeStep :=
  { step_type := StepType.MID, reward := 0, discount := 1,
    observation :=
      [("agent_slot", Val.intVec [1, 0]),
       ("global", Val.dict
          [("observations", Val.dict [("POSITION", Val.intMat [[0, 0], [0, 0]])]),
           ("actions", Val.intVec [0, 8])])] }

/-- Two-agent observation with nobody near the river: the qualifying-cleaner
count is 0. -/
def tsCCQuietW : TimeStep :=
  { step_type := StepType.MID, reward := 0, discount := 1,
    observation :=
      [("agent_slot", Val.intVec [1, 0]),
       ("global", Val.dict
          [("observations", Val.dict [("POSITION", Val.intMat [[0, 9], [0, 9]])]),
           ("actions", Val.intVec [0, 0])])] }

/-- State after the concrete trigger step of the C4 witness. -/
def s1W : CCState := ⟨1, 100, some [false, true]⟩

/-- State after the concrete quiet step of the C4 witness. -/
def s2W : CCState := ⟨2, 100, some [false, false]⟩

/-- Witness for C4: a concrete trigger at step count 0 re-arms to 100, emits
CLEAN, and the following quiet step still emits CLEAN. -/
theorem C4_clean_rearm_window_witness :
    s1W.clean_until = 0 + 100 ∧
    goalOf (puppet_timestep tsCCTrigW (cleanUpGoal "CLEAN"))
      = some (cleanUpGoal "CLEAN") ∧
    (goalOf (puppet_timestep tsCCQuietW (cleanUpGoal "CLEAN"))
      = some (cleanUpGoal "CLEAN") ↔ s1W.step_count < 0 + 100) := by
  have hrun : CCNoTriggerRun ⟨1⟩ s1W
      [(s1W, tsCCQuietW, puppet_timestep tsCCQuietW (cleanUpGoal "CLEAN"), s2W)] :=
    CCNoTriggerRun.cons s1W tsCCQuietW 0
      (puppet_timestep tsCCQuietW (cleanUpGoal "CLEAN")) s2W [] rfl rfl
      (by decide) rfl (CCNoTriggerRun.nil s2W)
  have h := C4_clean_rearm_window ⟨1⟩ tsCCTrigW ConditionalCleaner.initial_state 1
    (puppet_timestep tsCCTrigW (cleanUpGoal "CLEAN")) s1W 0 _ rfl rfl rfl
    (by decide) rfl hrun
  exact ⟨h.1, h.2.1, (h.2.2 _ (List.mem_singleton.mpr rfl)).2.1⟩

/-- First-step variant of the single-agent observation. -/
def tsCCFirstObsW : TimeStep :=
  { step_type := StepType.FIRST, reward := 0, discount := 1,
    observation :=
      [("agent_slot", Val.intVec [1]),
       ("global", Val.dict
          [("observations", Val.dict [("POSITION", Val.intMat [[0, 0]])]),
           ("actions", Val.intVec [0])])] }

/-- Counterexample to C10 as stated: on a first-step call with incoming state
`{step_count := 5, clean_until := 7}`, the returned state has step count 1,
not 5 + 1 = 6, and its `clean_until` is 0, which is neither the incoming
`clean_until` (7) nor the incoming step count + 100 (105). -/
theorem C10_per_call_cex :
    (ConditionalCleaner.step ⟨1⟩ tsCCFirstObsW ⟨5, 7, some [true]⟩).map
        (fun r => r.2.step_count) = some 1 ∧
    CCState.step_count ⟨5, 7, some [true]⟩ + 1 = 6 ∧
    (1 : Int) ≠ 6 ∧
    (ConditionalCleaner.step ⟨1⟩ tsCCFirstObsW ⟨5, 7, some [true]⟩).map
        (fun r => r.2.clean_until) = some 0 ∧
    (0 : Int) ≠ CCState.clean_until ⟨5, 7, some [true]⟩ ∧
    (0 : Int) ≠ CCState.step_count ⟨5, 7, some [true]⟩ + 100 :=
  ⟨rfl, rfl, by decide, rfl, by decide, by decide⟩

/-- C10 (amended): every reachable state satisfies
`clean_until ≤ step_count + 100`, and every successful call on a non-first
timestep advances `step_count` by exactly one and leaves `clean_until`
unchanged or re-armed to the incoming `step_count + 100`. -/
theorem C10_commitment_invariant (c : ConditionalCleaner) :
    (∀ s, CCReachable c s → s.clean_until ≤ s.step_count + 100) ∧
    (∀ (ts : TimeStep) (s : CCState) (ts' : TimeStep) (s' : CCState),
      ts.first = false → ConditionalCleaner.step c ts s = some (ts', s') →
      s'.step_count = s.step_count + 1 ∧
      (s'.clean_until = s.clean_until ∨ s'.clean_until = s.step_count + 100)) := by
  constructor
  · intro s hreach
    induction hreach with
    | init => simp [ConditionalCleaner.initial_state]
    | next s ts ts' s' hr hstep ih =>
      obtain ⟨cl, n, hcl, hcnt, hs', hts'⟩ := cc_step_anatomy c ts s ts' s' hstep
      by_cases hf : ts.first = true
      · rw [hs']
        simp only [hf, if_true, ConditionalCleaner.initial_state]
        split_ifs <;> omega
      · have hf' : ts.first = false := by
          cases hb : ts.first
          · rfl
          · exact absurd hb hf
        rw [hs']
        simp only [hf', Bool.false_eq_true, if_false]
        split_ifs <;> omega
  · intro ts s ts' s' hfirst hstep
    obtain ⟨cl, n, hcl, hcnt, hs', hts'⟩ :=
      cc_step_nonfirst c ts s ts' s' hfirst hstep
    rw [hs']
    dsimp only
    refine ⟨rfl, ?_⟩
    split_ifs
    · right
      rfl
    · left
      rfl

/-- Witness for the amended C10: the initial state satisfies the invariant,
and a concrete non-first call advances the step count by one. -/
theorem C10_commitment_invariant_witness :
    ConditionalCleaner.initial_state.clean_until
      ≤ ConditionalCleaner.initial_state.step_count + 100 ∧
    CCState.step_count ⟨1, 0, some [false]⟩
      = CCState.step_count ⟨0, 0, some [true]⟩ + 1 := by
  have h := C10_commitment_invariant ⟨1⟩
  refine ⟨h.1 _ CCReachable.init, ?_⟩
  exact (h.2 tsCCW ⟨0, 0, some [true]⟩ (puppet_timestep tsCCW (cleanUpGoal "EAT"))
    ⟨1, 0, some [false]⟩ rfl rfl).1
